import Mathlib

/-!
Verification development for the `postgres-from-row` crate.

The embedding models the closed world of `FromRow` implementations that the
crate provides:

* the hand-written impls in `src/tuples.rs` (`()` and the 1..32 tuples of
  `FromSqlOwned` scalars),
* the impls that `#[derive(FromRow)]` generates for a named struct
  (`postgres-from-row-derive/src/lib.rs`), where every field is either a
  plain scalar column, `#[from_row(flatten)]` or `#[from_row(join)]`,
* the generic adapter impls for `Option<T>` and `Vec<T>` in `src/lib.rs`.

A `FromSql` scalar type is abstracted to the pair of predicates the crate
actually consults (`accepts` and the `from_sql_null`-based nullability test);
decoding one cell with the decoder that reads it is abstracted to the
outcome stored in the cell (success with an abstract value, a `WasNull`
class error, or any other `tokio_postgres::Error`).  Panics
(`std::panic::panic_any`, `Option::expect`, `Result::expect`) are modelled
as a distinguished failure constructor so that the panicking and the
non-panicking entry points can be told apart.
-/

namespace PgFromRow

/-- Abstract wire type identifier (`tokio_postgres::types::Type`). -/
abbrev PgType := Nat

/-- The two classes of `tokio_postgres::Error` that the crate distinguishes
during binding: the `WasNull` marker (recognised by `is_was_null` in
`src/lib.rs`) and every other error. -/
inductive PgErr where
  | wasNull
  | other
deriving DecidableEq, Repr

/-- Outcome of decoding one cell with the scalar decoder that reads it:
`Row::try_get` either yields a value (abstracted to `Nat`) or an error. -/
abbrev Cell := Except PgErr Nat

/-- One entry of `Row::columns()`: the column name and its wire type. -/
structure Col where
  name : String
  ty : PgType
deriving DecidableEq, Repr

/-- A materialized `tokio_postgres::Row`: column metadata plus the cells,
positionally aligned. -/
structure PRow where
  columns : List Col
  cells : List Cell

/-- The part of a `FromSql` impl that the crate consults: `T::accepts` and
the `from_sql_null`-based nullability test used by `ExpectedColumn::new`. -/
structure Dec where
  accepts : PgType → Bool
  nullable : PgType → Bool

/-- One entry of the validator's expected shape (`ExpectedColumn` in
`src/lib.rs`); the `type_name` field is diagnostic-only and omitted. -/
structure ExpectedColumn where
  column_name : Option String
  accepts : PgType → Bool
  nullable : PgType → Bool

/-- `ExpectedColumn::set_nullable` from `src/lib.rs`. -/
def set_nullable (e : ExpectedColumn) : ExpectedColumn :=
  { e with nullable := fun _ => true }

/-- A failure of a binding operation: either a `tokio_postgres::Error`
returned through `Result`, or a panic.  `panicReport` is
`std::panic::panic_any(report_expected_columns_mismatch(found, expected))`
from `FromRow::assert_matches`; `panicMsg` is an `expect`-style panic. -/
inductive Failure where
  | pg : PgErr → Failure
  | panicReport : List Col → List ExpectedColumn → Failure
  | panicMsg : String → Failure

/-- `is_was_null` from `src/lib.rs`, lifted to the failure type: a panic is
not a `tokio_postgres::Error` at all, so it is never "was null". -/
def is_was_null : Failure → Bool
  | .pg .wasNull => true
  | _ => false

mutual

/-- A `FromRow` implementor from the crate's closed world. -/
inductive Ty where
  | unit : Ty
  | tuple : List Dec → Ty
  | strukt : Fields → Ty
  | opt : Ty → Ty
  | vec : Ty → Ty

/-- The ordered field list of a struct that derives `FromRow`: each field is
a plain scalar column (with its sql column name, possibly renamed), a
`#[from_row(flatten)]` field, or a `#[from_row(join)]` field. -/
inductive Fields where
  | nil : Fields
  | scalar : String → Dec → Fields → Fields
  | flatten : Ty → Fields → Fields
  | join : Ty → Fields → Fields

end

mutual

/-- `FromRow::COLUMN_COUNT`: 0 for `()`, the arity for a tuple, the sum of
the fields' contributions for a derived struct, and the inner type's count
for `Option<T>` and `Vec<T>`. -/
def Ty.COLUMN_COUNT : Ty → Nat
  | .unit => 0
  | .tuple ds => ds.length
  | .strukt fs => Fields.column_sum fs
  | .opt t => t.COLUMN_COUNT
  | .vec t => t.COLUMN_COUNT

/-- The derived `COLUMN_COUNT` sum `0 + t_1 + ... + t_n` where a scalar
field contributes `1` and a flatten/join field contributes the nested
type's `COLUMN_COUNT` (`FromRowField::generate_column_count`). -/
def Fields.column_sum : Fields → Nat
  | .nil => 0
  | .scalar _ _ rest => 1 + Fields.column_sum rest
  | .flatten t rest => t.COLUMN_COUNT + Fields.column_sum rest
  | .join t rest => t.COLUMN_COUNT + Fields.column_sum rest

end

/-- A reconstructed record value. -/
inductive Value where
  | vunit : Value
  | scalar : Nat → Value
  | tup : List Nat → Value
  | strukt : List Value → Value
  | opt : Option Value → Value
  | vec : List Value → Value

mutual

/-- Rust `PartialEq` on record values, used by the join-key comparison the
derive generates (`__last.field == field`). -/
def Value.beq : Value → Value → Bool
  | .vunit, .vunit => true
  | .scalar a, .scalar b => a == b
  | .tup a, .tup b => a == b
  | .strukt a, .strukt b => Value.beqList a b
  | .opt none, .opt none => true
  | .opt (some a), .opt (some b) => Value.beq a b
  | .vec a, .vec b => Value.beqList a b
  | _, _ => false

/-- Elementwise `PartialEq` on lists of record values. -/
def Value.beqList : List Value → List Value → Bool
  | [], [] => true
  | a :: xs, b :: ys => Value.beq a b && Value.beqList xs ys
  | _, _ => false

end

/-- One row's cells (`&tokio_postgres::Row` as the binder sees it). -/
abbrev Row := List Cell

/-- `Row::try_get::<_, T>(j)`: in-range yields the cell's decode outcome for
the decoder reading it; out of range is a (non-WasNull) column error. -/
def try_get (row : Row) (j : Nat) : Except Failure Nat :=
  match row.get? j with
  | some (.ok n) => .ok n
  | some (.error e) => .error (.pg e)
  | none => .error (.pg .other)

/-- Sequentially decode `n` scalar cells starting at index `i` (the body the
tuple impls in `src/tuples.rs` generate: `row.try_get(j)?` with a
post-incremented cursor). -/
def read_scalars (row : Row) (i : Nat) : Nat → Except Failure (List Nat)
  | 0 => .ok []
  | n + 1 =>
    match try_get row i with
    | .ok v =>
      match read_scalars row (i + 1) n with
      | .ok vs => .ok (v :: vs)
      | .error e => .error e
    | .error e => .error e

/-- Replace the last element of the list by `v` when `v` is present and the
list is non-empty: the effect, seen from outside, of handing
`vec.last_mut()` to a callee that mutates the element in place. -/
def set_last (vs : List Value) : Option Value → List Value
  | some v => if vs.isEmpty then vs else vs.dropLast ++ [v]
  | none => vs

/-- Update index `p` of the last struct's field values when the callee that
received `&mut __last.field` reports an updated value. -/
def set_at (lvs : List Value) (p : Nat) : Option Value → List Value
  | some v => lvs.set p v
  | none => lvs

/-- `expect` message used throughout the crate when a no-parent call to
`try_from_row_joined` returns `None`. -/
def no_none_msg : String :=
  "when try_from_row_joined is called with last = None it should never return None"

/-- Thread the inner mutation of `Option<T>`'s bind back into the parent
value: `last.as_deref_mut().and_then(Option::as_mut)` hands out a mutable
borrow of the inner `T` only when the parent holds `Some`. -/
def opt_thread (last : Option Value) (inner : Option Value) : Option Value :=
  match last with
  | some (.opt (some _)) => some (.opt inner)
  | _ => last

/-- The inner parent that `Option<T>`'s bind passes on. -/
def opt_inner_last : Option Value → Option Value
  | some (.opt (some v)) => some v
  | _ => none

mutual

/-- `FromRow::try_from_row_joined(last, row, index)`.

The Rust function receives `last : Option<&mut Self>` and may mutate it in
place; the model returns the pair `(updated last, produced value)`, where a
produced `none` is the "this row was joined into `last`" signal.

Case by case this is:
* `()` from `src/tuples.rs`: always `Ok(Some(()))`, nothing read;
* a tuple from `src/tuples.rs`: decode one cell per element at consecutive
  indices, ignoring `last`;
* a derived struct: the field-by-field body the derive emits, see
  `Fields.bind_fields`;
* `Option<T>` and `Vec<T>`: the adapter impls in `src/lib.rs`.

A `last` value of the wrong shape cannot occur in Rust (the trait is typed);
those unreachable branches leave `last` unchanged. -/
def Ty.try_from_row_joined :
    Ty → Option Value → Row → Nat → Except Failure (Option Value × Option Value)
  | .unit, last, _, _ => .ok (last, some .vunit)
  | .tuple ds, last, row, i =>
    match read_scalars row i ds.length with
    | .ok ns => .ok (last, some (.tup ns))
    | .error e => .error e
  | .strukt fs, last, row, i =>
    let lastVs : Option (List Value) :=
      match last with
      | some (.strukt vs) => some vs
      | _ => none
    (match Fields.bind_fields fs lastVs [] row i with
     | .ok (l, r) => .ok (l.map Value.strukt, r.map Value.strukt)
     | .error e => .error e)
  | .opt t, last, row, i =>
    (match t.try_from_row_joined (opt_inner_last last) row i with
     | .ok (il, none) => .ok (opt_thread last il, none)
     | .ok (il, some v) => .ok (opt_thread last il, some (.opt (some v)))
     | .error e =>
       if is_was_null e then .ok (last, some (.opt none)) else .error e)
  | .vec t, last, row, i =>
    match last with
    | none =>
      (match t.try_from_row_joined none row i with
       | .ok (_, some v) => .ok (none, some (.vec [v]))
       | .ok (_, none) => .error (.panicMsg no_none_msg)
       | .error e =>
         if is_was_null e then .ok (none, some (.vec [])) else .error e)
    | some (.vec vs) =>
      (match t.try_from_row_joined vs.getLast? row i with
       | .ok (le, res) =>
         .ok (some (.vec (match res with
                          | some item => set_last vs le ++ [item]
                          | none => set_last vs le)), none)
       | .error e =>
         if is_was_null e then .ok (some (.vec vs), none) else .error e)
    | some v => .ok (some v, none)

/-- The body of the derived `try_from_row_joined`
(`FromRowField::generate_try_from_row`), walking the fields in declaration
order with the shared cursor `i`:

* a scalar field is `row.try_get(j)?` with `j = i` and `i += 1`;
* a flatten field recurses with no parent (`expect`ing `Some`) and advances
  `i` by the nested `COLUMN_COUNT`;
* a join field compares the already-bound non-join fields against the same
  fields of `__last` (the derive rejects a join field in non-last position,
  so at the join field the bound prefix is exactly the non-join fields);
  on a match it recurses with `Some(&mut __last.field)` and an inner `None`
  makes the whole struct yield `None`, otherwise it binds a fresh nested
  value with no parent.

`lastVs` is `__last`'s field values, `bound` the values bound so far on
this row. -/
def Fields.bind_fields :
    Fields → Option (List Value) → List Value → Row → Nat →
      Except Failure (Option (List Value) × Option (List Value))
  | .nil, lastVs, bound, _, _ => .ok (lastVs, some bound)
  | .scalar _ _ rest, lastVs, bound, row, i =>
    (match try_get row i with
     | .ok v => Fields.bind_fields rest lastVs (bound ++ [.scalar v]) row (i + 1)
     | .error e => .error e)
  | .flatten t rest, lastVs, bound, row, i =>
    (match t.try_from_row_joined none row i with
     | .ok (_, some v) =>
       Fields.bind_fields rest lastVs (bound ++ [v]) row (i + t.COLUMN_COUNT)
     | .ok (_, none) => .error (.panicMsg no_none_msg)
     | .error e => .error e)
  | .join t rest, lastVs, bound, row, i =>
    match
      (match lastVs with
       | some lvs =>
         if Value.beqList (lvs.take bound.length) bound then some lvs else none
       | none => none) with
    | some lvs =>
      (match t.try_from_row_joined (lvs.get? bound.length) row i with
       | .ok (il, none) => .ok (some (set_at lvs bound.length il), none)
       | .ok (il, some item) =>
         Fields.bind_fields rest (some (set_at lvs bound.length il))
           (bound ++ [item]) row (i + t.COLUMN_COUNT)
       | .error e => .error e)
    | none =>
      (match t.try_from_row_joined none row i with
       | .ok (_, some v) =>
         Fields.bind_fields rest lastVs (bound ++ [v]) row (i + t.COLUMN_COUNT)
       | .ok (_, none) => .error (.panicMsg no_none_msg)
       | .error e => .error e)

end

mutual

/-- `FromRow::report_expected_columns`: `()` expects nothing, a tuple
expects one nameless column per element (`ExpectedColumn::new::<T>(None)`),
a derived struct concatenates one named expectation per scalar field with
the nested lists of its flatten/join fields, and the `Option<T>` / `Vec<T>`
adapters take `T`'s list with every entry forced nullable.  (The derive's
const-slice fast path for structs without flatten/join fields produces the
same list as the vector path modelled here.) -/
def Ty.report_expected_columns : Ty → List ExpectedColumn
  | .unit => []
  | .tuple ds =>
    ds.map fun d => { column_name := none, accepts := d.accepts, nullable := d.nullable }
  | .strukt fs => Fields.report_fields fs
  | .opt t => (t.report_expected_columns).map set_nullable
  | .vec t => (t.report_expected_columns).map set_nullable

/-- Per-field expected columns of a derived struct
(`generate_report_expected_columns_to_vec`). -/
def Fields.report_fields : Fields → List ExpectedColumn
  | .nil => []
  | .scalar name d rest =>
    { column_name := some name, accepts := d.accepts, nullable := d.nullable }
      :: Fields.report_fields rest
  | .flatten t rest => t.report_expected_columns ++ Fields.report_fields rest
  | .join t rest => t.report_expected_columns ++ Fields.report_fields rest

end

/-- The generated tuple check `true && T0::accepts(c0.type_()) && ...`
after the exact-arity slice pattern has matched. -/
def accepts_all (ds : List Dec) (cols : List Col) : Bool :=
  (ds.zip cols).all fun p => p.1.accepts p.2.ty

mutual

/-- `FromRow::try_assert_matches` (as `Bool`: `true` is `Ok(())`):

* `()` ignores the incoming columns and always passes (`src/tuples.rs`);
* a tuple pattern-matches the slice against its exact arity and then checks
  `T::accepts` positionally (no names: tuple expectations carry none);
* a derived struct first fails fast when
  `columns.len() != Self::COLUMN_COUNT` and then walks the fields, see
  `Fields.assert_fields`;
* `Option<T>` and `Vec<T>` delegate to `T`. -/
def Ty.try_assert_matches : Ty → List Col → Bool
  | .unit, _ => true
  | .tuple ds, cols =>
    if cols.length = ds.length then accepts_all ds cols else false
  | .strukt fs, cols =>
    if cols.length = Fields.column_sum fs then Fields.assert_fields fs cols
    else false
  | .opt t, cols => t.try_assert_matches cols
  | .vec t, cols => t.try_assert_matches cols

/-- The per-field walk of the derived `try_assert_matches`
(`FromRowField::generate_try_assert_matches`): a scalar field splits off the
first column and requires name equality plus `T::accepts`; a flatten/join
field splits off the nested `COLUMN_COUNT` columns and recurses into the
nested type's validator.  (The Rust `split_first().unwrap()` on an empty
slice would panic, but the `COLUMN_COUNT` length guard makes that
unreachable; the model returns failure there.) -/
def Fields.assert_fields : Fields → List Col → Bool
  | .nil, _ => true
  | .scalar name d rest, cols =>
    match cols with
    | [] => false
    | c :: cs =>
      if c.name = name && d.accepts c.ty then Fields.assert_fields rest cs
      else false
  | .flatten t rest, cols =>
    if t.try_assert_matches (cols.take t.COLUMN_COUNT) then
      Fields.assert_fields rest (cols.drop t.COLUMN_COUNT)
    else false
  | .join t rest, cols =>
    if t.try_assert_matches (cols.take t.COLUMN_COUNT) then
      Fields.assert_fields rest (cols.drop t.COLUMN_COUNT)
    else false

end

/-- `FromRow::assert_matches`: panics (with the rendered mismatch report of
the found columns against `Self::report_expected_columns()`) when
`try_assert_matches` fails.  `Vec<T>` overrides it to `T::assert_matches`
(`src/lib.rs`), every other implementor uses the trait default. -/
def Ty.assert_matches : Ty → List Col → Except Failure Unit
  | .vec t, cols => t.assert_matches cols
  | t, cols =>
    if t.try_assert_matches cols then .ok ()
    else .error (.panicReport cols t.report_expected_columns)

/-- `FromRow::try_from_row`: note that it calls the panicking
`assert_matches`, not `try_assert_matches`, before binding. -/
def Ty.try_from_row (t : Ty) (row : PRow) : Except Failure Value :=
  match t.assert_matches row.columns with
  | .error e => .error e
  | .ok _ =>
    match t.try_from_row_joined none row.cells 0 with
    | .ok (_, some v) => .ok v
    | .ok (_, none) => .error (.panicMsg no_none_msg)
    | .error e => .error e

/-- `FromRow::from_row`: `assert_matches` then
`try_from_row(row).expect("could not convert column")`, which turns a
returned `tokio_postgres::Error` into a panic. -/
def Ty.from_row (t : Ty) (row : PRow) : Except Failure Value :=
  match t.assert_matches row.columns with
  | .error e => .error e
  | .ok _ =>
    match t.try_from_row row with
    | .ok v => .ok v
    | .error (.pg _) => .error (.panicMsg "could not convert column")
    | .error e => .error e

/-- The row loop shared by `from_slice` and `try_from_slice`: for each row
call `try_from_row_joined(vec.last_mut(), row, 0)`; thread the mutation of
the accumulator's last element, and push a produced value. -/
def bind_loop (t : Ty) : List PRow → List Value → Except Failure (List Value)
  | [], acc => .ok acc
  | r :: rs, acc =>
    match t.try_from_row_joined acc.getLast? r.cells 0 with
    | .ok (last, res) =>
      bind_loop t rs
        ((match last with
          | some v => if acc.isEmpty then acc else acc.dropLast ++ [v]
          | none => acc) ++ (match res with | some v => [v] | none => []))
    | .error e => .error e

/-- `FromRow::try_from_slice`: empty input short-circuits to an empty
output; otherwise the panicking `assert_matches` runs once, on the first
row's columns, before the row loop. -/
def Ty.try_from_slice (t : Ty) (rows : List PRow) : Except Failure (List Value) :=
  match rows with
  | [] => .ok []
  | first :: _ =>
    match t.assert_matches first.columns with
    | .error e => .error e
    | .ok _ => bind_loop t rows []

/-- `FromRow::from_slice`: like `try_from_slice`, but each row's result is
`expect`ed, so a binding error becomes a panic. -/
def Ty.from_slice (t : Ty) (rows : List PRow) : Except Failure (List Value) :=
  match rows with
  | [] => .ok []
  | first :: _ =>
    match t.assert_matches first.columns with
    | .error e => .error e
    | .ok _ =>
      match bind_loop t rows [] with
      | .ok vs => .ok vs
      | .error (.pg _) => .error (.panicMsg "could not convert column")
      | .error e => .error e

/-- The attribute configuration of one struct field as seen by the derive
macro (`FromRowField` in `postgres-from-row-derive/src/lib.rs`), reduced to
the presence flags its validation consults. -/
structure FromRowField where
  flatten : Bool
  join : Bool
  has_from : Bool
  has_from_fn : Bool
  has_try_from : Bool
  has_try_from_fn : Bool
  has_rename : Bool
deriving DecidableEq, Repr

/-- The four-way `match` opening `FromRowField::validate`: at most one of
`from`, `from_fn`, `try_from`, `try_from_fn` may be given. -/
def at_most_one_from (f : FromRowField) : Bool :=
  match f.has_from, f.has_from_fn, f.has_try_from, f.has_try_from_fn with
  | true, false, false, false => true
  | false, true, false, false => true
  | false, false, true, false => true
  | false, false, false, true => true
  | false, false, false, false => true
  | _, _, _, _ => false

/-- `FromRowField::validate`: the per-field attribute-combination checks,
in source order. -/
def FromRowField.validate (f : FromRowField) : Except String Unit :=
  if !at_most_one_from f then
    .error "cant use the from_row *from* attributes together"
  else if f.flatten && (f.has_from || f.has_try_from || f.has_from_fn || f.has_try_from_fn) then
    .error "cant combine from_row flatten with one of the from_row *from* attributes"
  else if f.join && (f.has_from || f.has_try_from || f.has_from_fn || f.has_try_from_fn) then
    .error "cant combine from_row join with one of the from_row *from* attributes"
  else if f.has_rename && f.flatten then
    .error "cant combine from_row flatten with from_row rename"
  else if f.has_rename && f.join then
    .error "cant combine from_row join with from_row rename"
  else if f.flatten && f.join then
    .error "cant combine from_row flatten with from_row join"
  else .ok ()

/-- The first loop of `DeriveFromRow::validate`: validate every field,
stopping at the first error. -/
def validate_each : List FromRowField → Except String Unit
  | [] => .ok ()
  | f :: fs =>
    match f.validate with
    | .ok _ => validate_each fs
    | .error e => .error e

/-- The second loop of `DeriveFromRow::validate`: over
`fields.split_last().map(|x| x.1).unwrap_or(&[])` — every field but the
last — reject `#[from_row(join)]`. -/
def check_join_last : List FromRowField → Except String Unit
  | [] => .ok ()
  | f :: fs =>
    if f.join then
      .error "the attribute from_row join can only be used on the last field"
    else check_join_last fs

/-- `DeriveFromRow::validate`, run by `DeriveFromRow::generate` before any
code is emitted: per-field validation, then the join-only-on-last-field
check over all fields but the last. -/
def derive_validate (fields : List FromRowField) : Except String Unit :=
  match validate_each fields with
  | .error e => .error e
  | .ok _ => check_join_last fields.dropLast

/-- A scalar decoder whose `accepts` holds for every wire type and whose
`from_sql_null` fails, like a non-`Option` `FromSql` impl. -/
def dAny : Dec := ⟨fun _ => true, fun _ => false⟩

/-- The child record `{c}` of the spec's join-grouping example: a derived
struct with the single scalar column `c`. -/
def child_ty : Ty := .strukt (.scalar "c" dAny .nil)

/-- The parent record `{k, children: Vec<child>}` of the spec's
join-grouping example: scalar column `k`, then `#[from_row(join)]` on
`children : Vec<child>`. -/
def kc_ty : Ty := .strukt (.scalar "k" dAny (.join (.vec child_ty) .nil))

/-- Physical columns of the example query: `k` then `c`. -/
def kc_cols : List Col := [⟨"k", 0⟩, ⟨"c", 0⟩]

/-- An example row `(k, c)` with both cells decoding successfully. -/
def kc_row (k c : Nat) : PRow := ⟨kc_cols, [.ok k, .ok c]⟩

/-- The record value `{k, children = cs}` the example binds to. -/
def kc_rec (k : Nat) (cs : List Nat) : Value :=
  .strukt [.scalar k, .vec (cs.map fun c => .strukt [.scalar c])]

/-- One step of adjacency-based grouping: merge the pair into the last
group when its key matches, else append a fresh group. -/
def group_step (acc : List (Nat × List Nat)) (p : Nat × Nat) :
    List (Nat × List Nat) :=
  match acc.getLast? with
  | some g =>
    if g.1 = p.1 then acc.dropLast ++ [(g.1, g.2 ++ [p.2])]
    else acc ++ [(p.1, [p.2])]
  | none => [(p.1, [p.2])]

/-- Reference semantics of the join-grouping example: a single left-to-right
pass that merges each row into the previous group exactly when the keys are
equal and adjacent. -/
def group_adj (ps : List (Nat × Nat)) : List (Nat × List Nat) :=
  ps.foldl group_step []

/-- The per-field column contribution list of a derived struct, as the spec
words it: 1 for a Scalar field, the nested type's `COLUMN_COUNT` for a
Flatten or Join field. -/
def contribs : Fields → List Nat
  | .nil => []
  | .scalar _ _ rest => 1 :: contribs rest
  | .flatten t rest => t.COLUMN_COUNT :: contribs rest
  | .join t rest => t.COLUMN_COUNT :: contribs rest

/-- Build a derived struct's field list out of scalar fields only (no
Flatten/Join). -/
def scalar_fields : List (String × Dec) → Fields
  | [] => .nil
  | (n, d) :: rest => .scalar n d (scalar_fields rest)

/-- Spec-side reading of the validator contract for a derived struct's
fields (claim C1): the columns are consumed positionally, a scalar
expectation (which carries a name) requires name equality and `accepts` on
the wire type, and a Flatten/Join field is validated by recursing into the
nested type's validator on the consecutive sub-slice of columns whose
length is the nested `COLUMN_COUNT`; at the end no columns remain. -/
def fields_match_spec : Fields → List Col → Prop
  | .nil, cols => cols = []
  | .scalar name d rest, cols =>
    match cols with
    | [] => False
    | c :: cs => c.name = name ∧ d.accepts c.ty = true ∧ fields_match_spec rest cs
  | .flatten t rest, cols =>
    t.try_assert_matches (cols.take t.COLUMN_COUNT) = true ∧
      fields_match_spec rest (cols.drop t.COLUMN_COUNT)
  | .join t rest, cols =>
    t.try_assert_matches (cols.take t.COLUMN_COUNT) = true ∧
      fields_match_spec rest (cols.drop t.COLUMN_COUNT)

/-- Spec-side reading of claim C5 for `Vec<T>` bound with no parent: a
successful inner bind seeds a one-element collection, a was-null inner
error seeds an empty collection, any other inner error propagates.  (An
inner `Ok(None)` with no parent violates the inner type's contract and hits
the `expect`, a panic.) -/
def vec_seed_spec (inner : Except Failure (Option Value × Option Value)) :
    Except Failure (Option Value × Option Value) :=
  match inner with
  | .ok (_, some v) => .ok (none, some (.vec [v]))
  | .ok (_, none) => .error (.panicMsg no_none_msg)
  | .error e => if is_was_null e then .ok (none, some (.vec [])) else .error e

/-- Spec-side reading of claim C5 for `Vec<T>` bound with a parent
collection `vs`: the inner bind runs against the collection's last element;
a produced element is appended, a merge leaves only the mutated last
element, a was-null inner error contributes nothing, any other inner error
propagates — and in every non-error case the call yields "no new value" so
the outer record is not duplicated. -/
def vec_step_spec (vs : List Value)
    (inner : Except Failure (Option Value × Option Value)) :
    Except Failure (Option Value × Option Value) :=
  match inner with
  | .ok (le, some item) => .ok (some (.vec (set_last vs le ++ [item])), none)
  | .ok (le, none) => .ok (some (.vec (set_last vs le)), none)
  | .error e => if is_was_null e then .ok (some (.vec vs), none) else .error e

/-- Spec-side reading of claim C6 for `Option<T>`: the inner bind runs
against the parent's inner value; a was-null inner error is converted to
the absent value `None` (no error), a successful inner bind with value `v`
yields `Some(v)`, an inner merge (`Ok(None)`) passes through, any other
inner error propagates unchanged. -/
def opt_step_spec (last : Option Value)
    (inner : Except Failure (Option Value × Option Value)) :
    Except Failure (Option Value × Option Value) :=
  match inner with
  | .ok (il, none) => .ok (opt_thread last il, none)
  | .ok (il, some v) => .ok (opt_thread last il, some (.opt (some v)))
  | .error e => if is_was_null e then .ok (last, some (.opt none)) else .error e

/-- A derived struct expecting the single column `k`: the smallest record
type whose schema a zero-column row fails to match. -/
def one_col_ty : Ty := .strukt (.scalar "k" dAny .nil)

/-- A physical row with no columns and no cells. -/
def empty_prow : PRow := ⟨[], []⟩

/-- Encode a list of `(key, children)` groups as the record values the
join-grouping example binds to. -/
def kc_encode (gs : List (Nat × List Nat)) : List Value :=
  gs.map fun g => kc_rec g.1 g.2

/-- A two-field derive configuration whose first field carries
`#[from_row(join)]`. -/
def bad_fields : List FromRowField :=
  [⟨false, true, false, false, false, false, false⟩,
   ⟨false, false, false, false, false, false, false⟩]

/-! ## Helper lemmas -/

theorem column_sum_eq_sum_contribs : ∀ fs : Fields,
    Fields.column_sum fs = (contribs fs).sum
  | .nil => rfl
  | .scalar n d rest => by
    simp [Fields.column_sum, contribs, column_sum_eq_sum_contribs rest]
  | .flatten t rest => by
    simp [Fields.column_sum, contribs, column_sum_eq_sum_contribs rest]
  | .join t rest => by
    simp [Fields.column_sum, contribs, column_sum_eq_sum_contribs rest]

theorem scalar_fields_sum : ∀ l : List (String × Dec),
    Fields.column_sum (scalar_fields l) = l.length
  | [] => rfl
  | (n, d) :: rest => by
    simp [scalar_fields, Fields.column_sum, scalar_fields_sum rest]
    omega

theorem check_join_last_err : ∀ l : List FromRowField, ∀ f ∈ l,
    f.join = true → (check_join_last l).isOk = false
  | g :: gs, f, hf, hj => by
    rcases List.mem_cons.mp hf with rfl | hmem
    · simp [check_join_last, hj, Except.isOk, Except.toBool]
    · by_cases hg : g.join = true
      · simp [check_join_last, hg, Except.isOk, Except.toBool]
      · simpa [check_join_last, hg, Except.isOk, Except.toBool] using
          check_join_last_err gs f hmem hj

theorem bind_loop_ignores_columns (t : Ty) : ∀ (rows : List PRow) (acc : List Value),
    bind_loop t rows acc
      = bind_loop t (rows.map fun p => ⟨[], p.cells⟩) acc
  | [], acc => rfl
  | r :: rs, acc => by
    simp only [List.map_cons]
    cases h : t.try_from_row_joined acc.getLast? r.cells 0 with
    | ok p =>
      obtain ⟨l, res⟩ := p
      simp only [bind_loop, h]
      exact bind_loop_ignores_columns t rs _
    | error e => simp only [bind_loop, h]

theorem kc_bind_fresh (k c : Nat) :
    kc_ty.try_from_row_joined none [.ok k, .ok c] 0
      = .ok (none, some (kc_rec k [c])) := rfl

theorem kc_bind_merge (k c k' : Nat) (cs : List Nat) :
    kc_ty.try_from_row_joined (some (kc_rec k' cs)) [.ok k, .ok c] 0
      = if k' = k then .ok (some (kc_rec k' (cs ++ [c])), none)
        else .ok (some (kc_rec k' cs), some (kc_rec k [c])) := by
  rcases List.eq_nil_or_concat cs with rfl | ⟨init, y, rfl⟩ <;>
    by_cases hk : k' = k <;>
      simp [kc_ty, kc_rec, child_ty, Ty.try_from_row_joined, Fields.bind_fields,
        try_get, Value.beq, Value.beqList, set_at, set_last, hk]

theorem kc_loop : ∀ (ps : List (Nat × Nat)) (acc : List (Nat × List Nat)),
    bind_loop kc_ty (ps.map fun p => kc_row p.1 p.2) (kc_encode acc)
      = .ok (kc_encode (ps.foldl group_step acc))
  | [], acc => rfl
  | (k, c) :: ps, acc => by
    rcases List.eq_nil_or_concat acc with rfl | ⟨gs, ⟨k', cs⟩, rfl⟩
    · have h := kc_loop ps [(k, [c])]
      simp only [List.map_cons, bind_loop, kc_encode, List.map_nil,
        List.getLast?_nil, List.foldl_cons, group_step]
      rw [show (kc_row k c).cells = [Except.ok k, Except.ok c] from rfl, kc_bind_fresh]
      simpa [kc_encode] using h
    · simp only [List.concat_eq_append, List.map_cons, bind_loop, List.foldl_cons]
      have hlast : (kc_encode (gs ++ [(k', cs)])).getLast? = some (kc_rec k' cs) := by
        simp [kc_encode]
      rw [show (kc_row k c).cells = [Except.ok k, Except.ok c] from rfl,
        hlast, kc_bind_merge]
      by_cases hk : k' = k
      · subst hk
        have h := kc_loop ps (gs ++ [(k', cs ++ [c])])
        have hstep : group_step (gs ++ [(k', cs)]) (k', c) = gs ++ [(k', cs ++ [c])] := by
          simp [group_step]
        rw [if_pos rfl, hstep]
        simp only [kc_encode, List.map_append, List.map_cons, List.map_nil] at h ⊢
        simpa using h
      · have h := kc_loop ps ((gs ++ [(k', cs)]) ++ [(k, [c])])
        have hstep : group_step (gs ++ [(k', cs)]) (k, c) = (gs ++ [(k', cs)]) ++ [(k, [c])] := by
          simp [group_step, hk]
        rw [if_neg hk, hstep]
        simp only [kc_encode, List.map_append, List.map_cons, List.map_nil] at h ⊢
        simpa using h

theorem kc_slice_groups : ∀ ps : List (Nat × Nat),
    kc_ty.try_from_slice (ps.map fun p => kc_row p.1 p.2)
      = .ok (kc_encode (group_adj ps))
  | [] => rfl
  | p :: ps => by
    have h := kc_loop (p :: ps) []
    simpa [Ty.try_from_slice, Ty.assert_matches, kc_row, kc_encode, group_adj] using h

/-! ## Claim theorems -/

/-- Claim C3: for every derived struct, `COLUMN_COUNT` equals the sum of
its fields' contributions (1 per Scalar field, the nested `COLUMN_COUNT`
per Flatten/Join field); a struct with only scalar fields has
`COLUMN_COUNT` equal to its number of fields; an `n`-element tuple has
`COLUMN_COUNT = n`. -/
theorem column_count_additive :
    (∀ fs : Fields, (Ty.strukt fs).COLUMN_COUNT = (contribs fs).sum) ∧
    (∀ l : List (String × Dec),
      (Ty.strukt (scalar_fields l)).COLUMN_COUNT = l.length) ∧
    (∀ ds : List Dec, (Ty.tuple ds).COLUMN_COUNT = ds.length) := by
  refine ⟨fun fs => ?_, fun l => ?_, fun ds => rfl⟩
  · simpa [Ty.COLUMN_COUNT] using column_sum_eq_sum_contribs fs
  · simpa [Ty.COLUMN_COUNT] using scalar_fields_sum l

/-- Claim C10: the unit type `()` implements the binding protocol as a
zero-column record: `COLUMN_COUNT = 0`, `try_from_row_joined` always
succeeds with `Some(())` independently of the row and cursor (no cell is
read, `last` is untouched), and `try_assert_matches` accepts every physical
column list, of any length — in particular a two-column list. -/
theorem unit_binding_protocol :
    Ty.unit.COLUMN_COUNT = 0 ∧
    (∀ (last : Option Value) (row : Row) (i : Nat),
      Ty.unit.try_from_row_joined last row i = .ok (last, some .vunit)) ∧
    (∀ cols : List Col, Ty.unit.try_assert_matches cols = true) ∧
    Ty.unit.try_assert_matches [⟨"a", 0⟩, ⟨"b", 1⟩] = true := by
  exact ⟨rfl, fun last row i => rfl, fun cols => rfl, rfl⟩

/-- Claim C9: a field list handed to `#[derive(FromRow)]` in which some
field other than the last carries `#[from_row(join)]` is rejected by the
construction-time validation `DeriveFromRow::validate`, whatever the rest
of the configuration. -/
theorem join_nonlast_rejected (fs : List FromRowField)
    (h : ∃ i : Fin fs.length, (i : Nat) + 1 < fs.length ∧ (fs.get i).join = true) :
    (derive_validate fs).isOk = false := by
  obtain ⟨i, hi, hj⟩ := h
  unfold derive_validate
  cases hv : validate_each fs with
  | error e => rfl
  | ok u =>
    simp only []
    have hlen : (i : Nat) < fs.dropLast.length := by
      simpa [List.length_dropLast] using Nat.lt_sub_of_add_lt hi
    refine check_join_last_err fs.dropLast (fs.get i) ?_ hj
    have : fs.dropLast.get ⟨(i : Nat), hlen⟩ = fs.get i := by
      simp [List.get_eq_getElem, List.getElem_dropLast]
    exact this ▸ List.get_mem fs.dropLast (i : Nat) hlen

/-- Witness for claim C9: a two-field struct whose first field is
`#[from_row(join)]` fails derive-time validation. -/
theorem join_nonlast_rejected_witness :
    (derive_validate bad_fields).isOk = false := by
  apply join_nonlast_rejected
  exact ⟨(⟨0, by decide⟩ : Fin bad_fields.length), by decide, by decide⟩

/-- Claim C4 (code bug): on schema mismatch the supposedly non-panicking
entry points `try_from_row` and `try_from_slice` do not return the mismatch
as an error value of the advertised error type — they call the panicking
`assert_matches` and abort with the rendered mismatch report, here at the
concrete failing input of a one-column record bound from a zero-column
row. -/
theorem try_entry_points_panic_on_mismatch :
    one_col_ty.try_from_row empty_prow
      = .error (.panicReport [] one_col_ty.report_expected_columns) ∧
    one_col_ty.try_from_slice [empty_prow]
      = .error (.panicReport [] one_col_ty.report_expected_columns) ∧
    one_col_ty.from_row empty_prow
      = .error (.panicReport [] one_col_ty.report_expected_columns) ∧
    one_col_ty.from_slice [empty_prow]
      = .error (.panicReport [] one_col_ty.report_expected_columns) :=
  ⟨rfl, rfl, rfl, rfl⟩

/-- Claim C5: the `Vec<T>` adapter.  `COLUMN_COUNT` equals `T`'s; with no
parent present the bind is exactly the seeding step (a successful inner
bind yields a one-element collection, a was-null inner error an empty
collection, any other inner error propagates); with a parent collection
present the bind is exactly the merge-or-append step and always signals
"no new value". -/
theorem vec_adapter (t : Ty) :
    (Ty.vec t).COLUMN_COUNT = t.COLUMN_COUNT ∧
    (∀ (row : Row) (i : Nat),
      (Ty.vec t).try_from_row_joined none row i
        = vec_seed_spec (t.try_from_row_joined none row i)) ∧
    (∀ (vs : List Value) (row : Row) (i : Nat),
      (Ty.vec t).try_from_row_joined (some (.vec vs)) row i
        = vec_step_spec vs (t.try_from_row_joined vs.getLast? row i)) := by
  refine ⟨rfl, fun row i => ?_, fun vs row i => ?_⟩
  · cases h : t.try_from_row_joined none row i with
    | ok p =>
      obtain ⟨l, res⟩ := p
      cases res <;> simp [Ty.try_from_row_joined, vec_seed_spec, h]
    | error e => simp [Ty.try_from_row_joined, vec_seed_spec, h]
  · cases h : t.try_from_row_joined vs.getLast? row i with
    | ok p =>
      obtain ⟨l, res⟩ := p
      cases res <;> simp [Ty.try_from_row_joined, vec_step_spec, h]
    | error e => simp [Ty.try_from_row_joined, vec_step_spec, h]

/-- Claim C6: the `Option<T>` adapter.  `COLUMN_COUNT` equals `T`'s; the
bind runs `T`'s binder on the parent's inner value and a was-null inner
error becomes the absent value `None` (not an error), a successful inner
bind with `v` becomes `Some(v)`, any other inner error propagates
unchanged; and the reported expected columns are `T`'s with every entry
marked nullable. -/
theorem opt_adapter (t : Ty) :
    (Ty.opt t).COLUMN_COUNT = t.COLUMN_COUNT ∧
    (∀ (last : Option Value) (row : Row) (i : Nat),
      (Ty.opt t).try_from_row_joined last row i
        = opt_step_spec last (t.try_from_row_joined (opt_inner_last last) row i)) ∧
    (Ty.opt t).report_expected_columns
      = (t.report_expected_columns).map set_nullable := by
  refine ⟨rfl, fun last row i => ?_, rfl⟩
  cases h : t.try_from_row_joined (opt_inner_last last) row i with
  | ok p =>
    obtain ⟨l, res⟩ := p
    cases res <;> simp [Ty.try_from_row_joined, opt_step_spec, h]
  | error e => simp [Ty.try_from_row_joined, opt_step_spec, h]

/-- Claim C8: the batch entry points return an empty output on empty input
without consulting the validator (the equations hold for every implementor,
including those whose validator would reject an empty column list); on
non-empty input they run `assert_matches` once, against the first row's
columns, before the row loop — and the row loop itself never looks at any
row's columns (binding is unchanged when every row's column metadata is
erased). -/
theorem batch_single_validation :
    (∀ t : Ty, t.try_from_slice [] = .ok [] ∧ t.from_slice [] = .ok []) ∧
    (∀ (t : Ty) (r : PRow) (rs : List PRow),
      t.try_from_slice (r :: rs)
        = (match t.assert_matches r.columns with
           | .ok _ => bind_loop t (r :: rs) []
           | .error e => .error e)) ∧
    (∀ (t : Ty) (r : PRow) (rs : List PRow),
      t.from_slice (r :: rs)
        = (match t.assert_matches r.columns with
           | .ok _ =>
             (match bind_loop t (r :: rs) [] with
              | .ok vs => .ok vs
              | .error (.pg _) => .error (.panicMsg "could not convert column")
              | .error e => .error e)
           | .error e => .error e)) ∧
    (∀ (t : Ty) (rows : List PRow) (acc : List Value),
      bind_loop t rows acc
        = bind_loop t (rows.map fun p => ⟨[], p.cells⟩) acc) := by
  refine ⟨fun t => ⟨rfl, rfl⟩, fun t r rs => ?_, fun t r rs => ?_, ?_⟩
  · cases ha : t.assert_matches r.columns with
    | ok u => simp [Ty.try_from_slice, ha]
    | error e => simp [Ty.try_from_slice, ha]
  · cases ha : t.assert_matches r.columns with
    | ok u =>
      cases hb : bind_loop t (r :: rs) [] with
      | ok vs => simp [Ty.from_slice, ha, hb]
      | error e => cases e <;> simp [Ty.from_slice, ha, hb]
    | error e => simp [Ty.from_slice, ha]
  · exact fun t rows acc => bind_loop_ignores_columns t rows acc

/-- Claim C2: binding the rows `[(k=1,c=10), (k=1,c=20), (k=2,c=30)]` of
the spec's join-grouping example with `try_from_slice` yields exactly the
two records `[(k=1, children=[10,20]), (k=2, children=[30])]`. -/
theorem join_grouping_example :
    kc_ty.try_from_slice [kc_row 1 10, kc_row 1 20, kc_row 2 30]
      = .ok [kc_rec 1 [10, 20], kc_rec 2 [30]] := rfl

/-- Claim C7: grouping is adjacency-based and order-preserving.  The rows
`[(k=1,c=10), (k=2,c=30), (k=1,c=20)]` bound against the join-grouping
example schema yield three records — the non-adjacent rows with `k=1` are
not merged — and, for every input, `try_from_slice` computes exactly the
single left-to-right adjacency grouping `group_adj`, whose output order
follows the input row order with no reordering or lookahead. -/
theorem adjacency_grouping :
    kc_ty.try_from_slice [kc_row 1 10, kc_row 2 30, kc_row 1 20]
      = .ok [kc_rec 1 [10], kc_rec 2 [30], kc_rec 1 [20]] ∧
    (∀ ps : List (Nat × Nat),
      kc_ty.try_from_slice (ps.map fun p => kc_row p.1 p.2)
        = .ok (kc_encode (group_adj ps))) :=
  ⟨rfl, kc_slice_groups⟩

theorem assert_fields_iff_spec : ∀ (fs : Fields) (cols : List Col),
    cols.length = Fields.column_sum fs →
    (Fields.assert_fields fs cols = true ↔ fields_match_spec fs cols)
  | .nil, cols, h => by
    have : cols = [] := List.length_eq_zero.mp (by simpa [Fields.column_sum] using h)
    simp [Fields.assert_fields, fields_match_spec, this]
  | .scalar name d rest, cols, h => by
    cases cols with
    | nil =>
      exfalso
      simp [Fields.column_sum] at h
      omega
    | cons c cs =>
      have hcs : cs.length = Fields.column_sum rest := by
        simp [Fields.column_sum] at h
        omega
      have ih := assert_fields_iff_spec rest cs hcs
      simp only [Fields.assert_fields, fields_match_spec]
      by_cases hname : c.name = name
      · by_cases hacc : d.accepts c.ty = true
        · simp [hname, hacc, ih]
        · simp [hname, hacc]
      · simp [hname]
  | .flatten t rest, cols, h => by
    have hdrop : (cols.drop t.COLUMN_COUNT).length = Fields.column_sum rest := by
      simp only [Fields.column_sum] at h
      simp only [List.length_drop]
      omega
    have ih := assert_fields_iff_spec rest (cols.drop t.COLUMN_COUNT) hdrop
    simp only [Fields.assert_fields, fields_match_spec]
    by_cases htc : t.try_assert_matches (cols.take t.COLUMN_COUNT) = true
    · simp [htc, ih]
    · simp [htc]
  | .join t rest, cols, h => by
    have hdrop : (cols.drop t.COLUMN_COUNT).length = Fields.column_sum rest := by
      simp only [Fields.column_sum] at h
      simp only [List.length_drop]
      omega
    have ih := assert_fields_iff_spec rest (cols.drop t.COLUMN_COUNT) hdrop
    simp only [Fields.assert_fields, fields_match_spec]
    by_cases htc : t.try_assert_matches (cols.take t.COLUMN_COUNT) = true
    · simp [htc, ih]
    · simp [htc]

/-- Claim C1: for every derived struct and every physical column list, the
generated `try_assert_matches` passes exactly when the column list has
exactly `COLUMN_COUNT` entries and every column positionally matches its
expectation — name equality (a scalar field's expectation always carries
its column name) and the expected type's `accepts` on the column's wire
type — with Flatten/Join fields validated by recursing into the nested
type's validator on the consecutive sub-slice of columns whose length is
the nested `COLUMN_COUNT`. -/
theorem validator_sound_complete (fs : Fields) (cols : List Col) :
    (Ty.strukt fs).try_assert_matches cols = true
      ↔ cols.length = (Ty.strukt fs).COLUMN_COUNT ∧ fields_match_spec fs cols := by
  by_cases h : cols.length = Fields.column_sum fs
  · simp [Ty.try_assert_matches, Ty.COLUMN_COUNT, h, assert_fields_iff_spec fs cols h]
  · simp [Ty.try_assert_matches, Ty.COLUMN_COUNT, h]

end PgFromRow
